import Mathlib

/-!
Verification development for the word-cloud generator
(`wordcloud_generator/wordcloud_generator.py`).

The shallow embedding below translates the message-source parsing and
attribution core of the program:

* `extract_words` embeds `WordCloudGenerator._extract_words`;
* `parse_whatsapp` embeds `WordCloudGenerator._parse_whatsapp` together with
  its new-entry regex `re_new_line`;
* `inferRoles` / `parse_csv` embed `WordCloudGenerator._parse_csv`;
* `check_file_csv` / `csv_pipeline` embed the structural checks of
  `WordCloudGenerator._check_file` followed by CSV parsing.

Python dictionaries (which preserve insertion order) are embedded as
association lists; uncaught Python exceptions are embedded as `Except`
results with a `PyError` describing the exception class that escapes.
Strings are ASCII here (the claims only exercise ASCII data), so Python's
`str.upper()` is embedded as the ASCII case map.
-/

set_option maxRecDepth 8000

/-- Python exception classes that can escape from the embedded code paths. -/
inductive PyError where
  | attributeError : PyError
  | nameError : PyError
  | keyError : Option String → PyError
  | exception : String → PyError
  deriving DecidableEq, Repr

/-! Part: Character classes of the regexes in the source -/

/-- Characters Python's `str.split()` treats as (ASCII) whitespace. -/
def isPySpace (c : Char) : Bool :=
  decide (c = ' ' ∨ c = '\t' ∨ c = '\n' ∨ c = '\x0b' ∨ c = '\x0c' ∨ c = '\r')

/-- The class `[0-9]` used in the date-time prefix of `re_new_line`. -/
def isDigitChar (c : Char) : Bool :=
  decide ('0' ≤ c ∧ c ≤ '9')

/-- The class `[A-Za-z0-9 -]` of `re_name` and of the speaker group of
`re_new_line` (trailing `-` is a literal hyphen). -/
def isNameChar (c : Char) : Bool :=
  decide (('A' ≤ c ∧ c ≤ 'Z') ∨ ('a' ≤ c ∧ c ≤ 'z') ∨ ('0' ≤ c ∧ c ≤ '9') ∨ c = ' ' ∨ c = '-')

/-- The class `[0-9TZ:. -+]` of `re_timestamp`.  Note that ` -+` is a
character *range* from `' '` (0x20) to `'+'` (0x2B) in Python's `re`, so the
class also admits `!"#$%&'()*`. -/
def isTsChar (c : Char) : Bool :=
  decide (('0' ≤ c ∧ c ≤ '9') ∨ c = 'T' ∨ c = 'Z' ∨ c = ':' ∨ c = '.' ∨ (' ' ≤ c ∧ c ≤ '+'))

/-- The class `[A-Z0-9]` of `re_alphanumeric` in `_extract_words`. -/
def isUpperAlnumChar (c : Char) : Bool :=
  decide (('A' ≤ c ∧ c ≤ 'Z') ∨ ('0' ≤ c ∧ c ≤ '9'))

/-- ASCII case map of Python's `str.upper()`, per character. -/
def pyUpperChar (c : Char) : Char :=
  if 'a' ≤ c ∧ c ≤ 'z' then Char.ofNat (c.toNat - 32) else c

/-! Part: Tokenizer: `_extract_words` -/

/-- Worker for `pySplit`: `acc` is the word currently being accumulated. -/
def pySplitAux : List Char → List Char → List (List Char)
  | [], acc => if acc = [] then [] else [acc]
  | c :: cs, acc =>
    if isPySpace c = true then
      if acc = [] then pySplitAux cs [] else acc :: pySplitAux cs []
    else pySplitAux cs (acc ++ [c])

/-- Python's `str.split()` with no argument: split on runs of whitespace,
producing no empty tokens. -/
def pySplit (s : List Char) : List (List Char) :=
  pySplitAux s []

/-- The loop `for char in self.illegal_chars: word = word.replace(char, '')`:
delete every occurrence of each illegal character, in order. -/
def stripChars (il : List Char) (w : List Char) : List Char :=
  il.foldl (fun acc c => acc.filter (fun a => decide (a ≠ c))) w

/-- Full match of `re_alphanumeric = ^[A-Z0-9]+$`. -/
def alnumOK (w : List Char) : Bool :=
  decide (w ≠ []) && w.all isUpperAlnumChar

/-- One `word_freq` update: `word_freq[word] += 1` with `KeyError` fallback
`word_freq[word] = 1` (dicts keep insertion order). -/
def bump (d : List (List Char × Nat)) (w : List Char) : List (List Char × Nat) :=
  if ∃ p ∈ d, p.1 = w then
    d.map (fun p => if p.1 = w then (p.1, p.2 + 1) else p)
  else d ++ [(w, 1)]

/-- Body of the `for word in unparsed_word_list` loop of `_extract_words`:
uppercase, strip illegal characters, count only if `^[A-Z0-9]+$` matches. -/
def processWord (il : List Char) (d : List (List Char × Nat)) (w : List Char) :
    List (List Char × Nat) :=
  let u := stripChars il (w.map pyUpperChar)
  if alnumOK u = true then bump d u else d

/-- `WordCloudGenerator._extract_words(message_list)` with illegal-character
configuration `il` (`self.illegal_chars`, default `.,!?;:`). -/
def extract_words (msgs : List String) (il : List Char) : List (List Char × Nat) :=
  ((msgs.map (fun m => pySplit m.data)).flatten).foldl (processWord il) []

/-- The default of the `-i`/`--ignore` option, `".,!?;:"`. -/
def defaultIllegal : List Char :=
  String.data (".,!?;:")

/-! Part: Sequential-log attributor: `_parse_whatsapp` -/

/-- Full match of
`re_new_line = ^[0-9]{2}/[0-9]{2}/[0-9]{4}, [0-9]{2}:[0-9]{2} - ([A-Za-z0-9 -]{1,30}): (.+)$`,
returning the two capture groups (speaker, message).  Since `:` is not in the
speaker class, backtracking cannot move the group boundary: the speaker group
is the maximal run of name characters after the prefix, it must have length
1..30, be followed by `": "`, and leave at least one character for `(.+)`. -/
def matchNewEntry (cs : List Char) : Option (List Char × List Char) :=
  match cs with
  | d1 :: d2 :: '/' :: d3 :: d4 :: '/' :: y1 :: y2 :: y3 :: y4 :: ',' :: ' ' ::
      h1 :: h2 :: ':' :: m1 :: m2 :: ' ' :: '-' :: ' ' :: rest =>
    if (isDigitChar d1 && isDigitChar d2 && isDigitChar d3 && isDigitChar d4 &&
        isDigitChar y1 && isDigitChar y2 && isDigitChar y3 && isDigitChar y4 &&
        isDigitChar h1 && isDigitChar h2 && isDigitChar m1 && isDigitChar m2) = true then
      let person := rest.takeWhile isNameChar
      let tail := rest.dropWhile isNameChar
      if 1 ≤ person.length ∧ person.length ≤ 30 then
        match tail with
        | ':' :: ' ' :: msg => if msg = [] then none else some (person, msg)
        | _ => none
      else none
    else none
  | _ => none

/-- `person_data[person].append(message)` with the `KeyError` fallback
`person_data[person] = [message]` (dicts keep insertion order). -/
def appendMsg (d : List (String × List String)) (p : String) (m : String) :
    List (String × List String) :=
  if ∃ q ∈ d, q.1 = p then
    d.map (fun q => if q.1 = p then (q.1, q.2 ++ [m]) else q)
  else d ++ [(p, [m])]

/-- The `for line in self.file_data` loop of `_parse_whatsapp`.  `cur` is the
local variable `person`: `none` while it is still unassigned.  On a line that
fails `re_new_line` before any match has assigned `person`, looking up
`person_data[person]` raises `UnboundLocalError` (a `NameError`); the
`AttributeError` from `regex_match.string` is caught by the surrounding
`try`/`except AttributeError`. -/
def parseWhatsappLoop :
    List String → Option String → List (String × List String) →
      Except PyError (List (String × List String))
  | [], _, d => .ok d
  | line :: ls, cur, d =>
    match matchNewEntry line.data with
    | some (p, m) =>
      parseWhatsappLoop ls (some (String.mk p)) (appendMsg d (String.mk p) (String.mk m))
    | none =>
      match cur with
      | some person => parseWhatsappLoop ls (some person) (appendMsg d person line)
      | none => .error .nameError

/-- `WordCloudGenerator._parse_whatsapp`, producing the `person_data`
mapping (speaker, in first-seen order, to messages in input-line order), or
the Python exception class that escapes. -/
def parse_whatsapp (lines : List String) : Except PyError (List (String × List String)) :=
  parseWhatsappLoop lines none []

/-- Modelled from the spec (section 4.2, Sequential-Log Attributor), whose
sentences C1 cites: process lines in order, a matching line sets the current
speaker and appends its captured message, a non-matching line is appended in
its entirety as a separate new entry under the current speaker, key order is
first-seen-speaker order.  Used only to state the refinement in C1; the
malformed leading-line case is out of its scope (spec section 7). -/
def attribute_sequential_step (st : Option String × List (String × List String))
    (line : String) : Option String × List (String × List String) :=
  match matchNewEntry line.data with
  | some (p, m) => (some (String.mk p), appendMsg st.2 (String.mk p) (String.mk m))
  | none =>
    match st.1 with
    | some cur => (some cur, appendMsg st.2 cur line)
    | none => st

/-- Modelled from the spec (section 4.2): the fold described there, starting
with no current speaker. -/
def attribute_sequential (lines : List String) : List (String × List String) :=
  (lines.foldl attribute_sequential_step (none, [])).2

/-! Part: Tabular attributor: `_parse_csv` and `_check_file` -/

/-- Full match of `re_name = ^[A-Za-z0-9 -]{1,30}$`. -/
def matchesName (s : String) : Bool :=
  decide (1 ≤ s.data.length ∧ s.data.length ≤ 30) && s.data.all isNameChar

/-- Full match of `re_timestamp = ^[0-9TZ:. -+]{4,25}$`. -/
def matchesTimestamp (s : String) : Bool :=
  decide (4 ≤ s.data.length ∧ s.data.length ≤ 25) && s.data.all isTsChar

/-- `pandas.Series.unique()`: distinct values in first-seen order.  `seen`
accumulates the values already emitted. -/
def uniqueListAux : List String → List String → List String
  | [], _ => []
  | a :: l, seen => if a ∈ seen then uniqueListAux l seen else a :: uniqueListAux l (a :: seen)

/-- `list(column.unique())`. -/
def uniqueList (l : List String) : List String :=
  uniqueListAux l []

/-- The timestamp column test of `_parse_csv`: the row loop sets `time_col`
only at the last index, so it succeeds iff there is at least one row and every
cell matches `re_timestamp`. -/
def timestampCheck (cells : List String) : Bool :=
  decide (cells ≠ []) && cells.all matchesTimestamp

/-- The name column test of `_parse_csv`: at least one row, every cell matches
`re_name`, and `len(column.unique()) > 255` does not hold. -/
def nameCheck (cells : List String) : Bool :=
  decide (cells ≠ []) && cells.all matchesName && decide ((uniqueList cells).length ≤ 255)

/-- The local variables `time_col`, `name_col`, `message_col` of
`_parse_csv` (`None` is `none`; pandas column labels are non-empty strings,
so Python truthiness of a label is `Option.isSome`). -/
structure Roles where
  time_col : Option String
  name_col : Option String
  message_col : Option String
  deriving DecidableEq, Repr

/-- One iteration of the `for col in col_list` loop of `_parse_csv`:
timestamp test first (only while `time_col` is unset), then the name test,
then the first column claimed by neither becomes the message column. -/
def inferStep (r : Roles) (col : String × List String) : Roles :=
  if r.time_col = none ∧ timestampCheck col.2 = true then
    { r with time_col := some col.1 }
  else if r.name_col = none ∧ nameCheck col.2 = true then
    { r with name_col := some col.1 }
  else if r.message_col = none then
    { r with message_col := some col.1 }
  else r

/-- The column-role inference loop of `_parse_csv`, over the columns in table
order.  A column is the pair (label, cells in row order). -/
def inferRoles (cols : List (String × List String)) : Roles :=
  cols.foldl inferStep ⟨none, none, none⟩

/-- `df[label]`: the cells of the first column with this label (pandas labels
are unique after `read_csv`). -/
def lookupCells (cols : List (String × List String)) (l : String) : Option (List String) :=
  (cols.find? (fun q => decide (q.1 = l))).map (fun q => q.2)

/-- `WordCloudGenerator._parse_csv` after the role-inference loop:
`names = list(df[name_col].unique())`, then for each name the message cells of
the rows with that name are fed to `_extract_words`.  Indexing the frame with
an unset role (`df[None]`, or `df.loc[...][None]` on the first loop
iteration) raises `KeyError: None`. -/
def parse_csv (cols : List (String × List String)) (il : List Char) :
    Except PyError (List (String × List (List Char × Nat))) :=
  let r := inferRoles cols
  match r.name_col with
  | none => .error (.keyError none)
  | some nc =>
    match lookupCells cols nc with
    | none => .error (.keyError (some nc))
    | some nameCells =>
      let names := uniqueList nameCells
      match r.message_col with
      | none => if names = [] then .ok [] else .error (.keyError none)
      | some mc =>
        match lookupCells cols mc with
        | none => if names = [] then .ok [] else .error (.keyError (some mc))
        | some msgCells =>
          .ok (names.map (fun name =>
            (name,
              extract_words
                ((nameCells.zip msgCells).filterMap
                  (fun q => if q.1 = name then some q.2 else none)) il)))

/-- Message of the `>3 columns` structural rejection in `_check_file`. -/
def tooManyColsMsg : String :=
  "CSV appears to have more than 3 columns. WordCloudGenerator cannot parse this file"

/-- Message of the `0 rows` structural rejection in `_check_file`. -/
def noRowsMsg : String :=
  "CSV appears to have no rows. WordCloudGenerator cannot parse this file"

/-- `df.shape` row count of the embedded table (all pandas columns have the
same length). -/
def nRows (cols : List (String × List String)) : Nat :=
  match cols with
  | [] => 0
  | c :: _ => c.2.length

/-- The CSV branch of `WordCloudGenerator._check_file`: reject more than 3
columns, then fewer than 1 row, with `raise Exception(...)`. -/
def check_file_csv (cols : List (String × List String)) : Except PyError Unit :=
  if 3 < cols.length then .error (.exception tooManyColsMsg)
  else if nRows cols < 1 then .error (.exception noRowsMsg)
  else .ok ()

/-- The CSV pipeline order of the program: `_check_file` runs in `__init__`,
before `generate_cloud` ever calls `_parse_csv`. -/
def csv_pipeline (cols : List (String × List String)) (il : List Char) :
    Except PyError (List (String × List (List Char × Nat))) :=
  match check_file_csv cols with
  | .error e => .error e
  | .ok _ => parse_csv cols il

/-! Part: Serialization of a frequency table (for the idempotence claim C6) -/

/-- The word list of a frequency table, each word with its multiplicity. -/
def wordsOfTable (T : List (List Char × Nat)) : List (List Char) :=
  (T.map (fun p => List.replicate p.2 p.1)).flatten

/-- Join words with single spaces. -/
def joinSpaces : List (List Char) → List Char
  | [] => []
  | [w] => w
  | w :: w' :: ws => w ++ ' ' :: joinSpaces (w' :: ws)

/-- Serialize a frequency table into one message: its word list (with
multiplicities) joined by spaces. -/
def serializeTable (T : List (List Char × Nat)) : String :=
  String.mk (joinSpaces (wordsOfTable T))

/-- Well-formedness of a frequency table produced by `extract_words`:
distinct keys, every key a non-empty `[A-Z0-9]+` word containing no
illegal character, every count positive. -/
def TableWF (il : List Char) (T : List (List Char × Nat)) : Prop :=
  (T.map Prod.fst).Nodup ∧
    ∀ p ∈ T, alnumOK p.1 = true ∧ (∀ c ∈ il, c ∉ p.1) ∧ 1 ≤ p.2

/-! Part: Concrete inputs used by the claims -/

/-- First line of the sequential example in the spec (section 8). -/
def waLine1 : String := "01/01/2020, 10:00 - Alice: Hi there"

/-- Second line of the sequential example. -/
def waLine2 : String := "01/01/2020, 10:01 - Bob: Hello!"

/-- Third (continuation) line of the sequential example. -/
def waLine3 : String := "Second line from Bob"

/-- The C10 line: well-formed prefix and speaker, but empty message after
the colon-space separator. -/
def emptyMsgLine : String := "01/01/2020, 10:00 - Alice: "

/-- A hexadecimal digit, for building many distinct short names. -/
def hexDigitChar (n : Nat) : Char :=
  (("0123456789abcdef") : String).data.getD n ('0')

/-- A list of 256 distinct two-character cells, all matching `re_name`. -/
def cells256 : List String :=
  (List.range 256).map (fun n => String.mk [hexDigitChar (n / 16), hexDigitChar (n % 16)])

/-- A two-column table with no name-shaped column (both columns are long
free text), for C7. -/
def noNameTable : List (String × List String) :=
  [(("a"), [("this is a long message with punctuation!")]),
   (("b"), [("another long message, also with punctuation!")])]

/-- A four-column table (one row), for C5. -/
def fourColTable : List (String × List String) :=
  [(("a"), [("x")]), (("b"), [("x")]), (("c"), [("x")]), (("d"), [("x")])]

/-! Part: Helper lemmas: character classes and stripping -/

theorem stripChars_cons (c : Char) (il w : List Char) :
    stripChars (c :: il) w = stripChars il (w.filter (fun a => decide (a ≠ c))) := rfl

theorem stripChars_sub : ∀ (il w : List Char) (a : Char), a ∈ stripChars il w → a ∈ w := by
  intro il
  induction il with
  | nil => intro w a h; exact h
  | cons c il ih =>
    intro w a h
    rw [stripChars_cons] at h
    exact List.mem_of_mem_filter (ih _ a h)

theorem stripChars_not_mem : ∀ (il w : List Char) (c : Char), c ∈ il → c ∉ stripChars il w := by
  intro il
  induction il with
  | nil => intro w c h; cases h
  | cons x il ih =>
    intro w c hc hmem
    rw [stripChars_cons] at hmem
    rcases List.mem_cons.mp hc with rfl | hc
    · have hw := stripChars_sub il _ c hmem
      have := (List.mem_filter.mp hw).2
      simp at this
    · exact ih _ c hc hmem

theorem stripChars_id : ∀ (il w : List Char), (∀ c ∈ il, c ∉ w) → stripChars il w = w := by
  intro il
  induction il with
  | nil => intro w _; rfl
  | cons x il ih =>
    intro w h
    rw [stripChars_cons]
    have hx : w.filter (fun a => decide (a ≠ x)) = w := by
      apply List.filter_eq_self.mpr
      intro a ha
      simp only [decide_eq_true_eq]
      intro he
      exact (h x (List.mem_cons_self x il)) (he ▸ ha)
    rw [hx]
    exact ih w (fun c hc => h c (List.mem_cons_of_mem x hc))

theorem pyUpperChar_id {c : Char} (h : isUpperAlnumChar c = true) : pyUpperChar c = c := by
  have hd := of_decide_eq_true h
  unfold pyUpperChar
  rw [if_neg]
  rintro ⟨h1, _⟩
  rcases hd with ⟨hA, hZ⟩ | ⟨h0, h9⟩
  · exact absurd (le_trans h1 hZ) (by decide)
  · exact absurd (le_trans h1 h9) (by decide)

theorem alnum_not_space {c : Char} (h : isUpperAlnumChar c = true) : isPySpace c = false := by
  cases hs : isPySpace c with
  | false => rfl
  | true =>
    rcases of_decide_eq_true hs with h1 | h1 | h1 | h1 | h1 | h1 <;>
      (subst h1; exact absurd h (by decide))

theorem map_id_of_mem {α : Type} (f : α → α) :
    ∀ (l : List α), (∀ a ∈ l, f a = a) → l.map f = l := by
  intro l
  induction l with
  | nil => intro _; rfl
  | cons a l ih =>
    intro h
    rw [List.map_cons, h a (List.mem_cons_self a l),
      ih (fun b hb => h b (List.mem_cons_of_mem a hb))]

theorem foldl_congr_mem {α β : Type} (f g : β → α → β) :
    ∀ (l : List α) (b : β), (∀ a ∈ l, ∀ x, f x a = g x a) → l.foldl f b = l.foldl g b := by
  intro l
  induction l with
  | nil => intro b _; rfl
  | cons a l ih =>
    intro b h
    rw [List.foldl_cons, List.foldl_cons, h a (List.mem_cons_self a l)]
    exact ih _ (fun a' ha' => h a' (List.mem_cons_of_mem a ha'))

/-! Part: Helper lemmas: splitting and joining -/

theorem pySplitAux_word : ∀ (w rest acc : List Char), (∀ c ∈ w, isPySpace c = false) →
    pySplitAux (w ++ rest) acc = pySplitAux rest (acc ++ w) := by
  intro w
  induction w with
  | nil => intro rest acc _; rw [List.nil_append, List.append_nil]
  | cons c w ih =>
    intro rest acc h
    have hc : isPySpace c = false := h c (List.mem_cons_self c w)
    show pySplitAux (c :: (w ++ rest)) acc = _
    rw [pySplitAux, if_neg (by rw [hc]; exact Bool.false_ne_true),
      ih rest (acc ++ [c]) (fun a ha => h a (List.mem_cons_of_mem c ha)),
      List.append_assoc, List.singleton_append]

theorem pySplit_joinSpaces : ∀ (ws : List (List Char)),
    (∀ w ∈ ws, w ≠ [] ∧ ∀ c ∈ w, isPySpace c = false) →
    pySplitAux (joinSpaces ws) [] = ws := by
  intro ws
  induction ws with
  | nil => intro _; rfl
  | cons w ws ih =>
    intro h
    obtain ⟨hne, hns⟩ := h w (List.mem_cons_self w ws)
    cases ws with
    | nil =>
      show pySplitAux w [] = [w]
      have : pySplitAux (w ++ []) [] = pySplitAux [] ([] ++ w) := pySplitAux_word w [] [] hns
      rw [List.append_nil, List.nil_append] at this
      rw [this, pySplitAux, if_neg hne]
    | cons w' ws' =>
      show pySplitAux (w ++ ' ' :: joinSpaces (w' :: ws')) [] = w :: w' :: ws'
      rw [pySplitAux_word w _ [] hns, List.nil_append, pySplitAux,
        if_pos (by decide), if_neg hne,
        ih (fun a ha => h a (List.mem_cons_of_mem w ha))]

/-! Part: Helper lemmas: counting with `bump` -/

theorem bump_not_mem {d : List (List Char × Nat)} {w : List Char}
    (h : w ∉ d.map Prod.fst) : bump d w = d ++ [(w, 1)] := by
  rw [bump, if_neg]
  rintro ⟨p, hp, he⟩
  exact h (he ▸ List.mem_map_of_mem Prod.fst hp)

theorem bump_last {d : List (List Char × Nat)} {w : List Char} {m : Nat}
    (h : w ∉ d.map Prod.fst) : bump (d ++ [(w, m)]) w = d ++ [(w, m + 1)] := by
  rw [bump, if_pos ⟨(w, m), List.mem_append_right d (List.mem_singleton_self _), rfl⟩,
    List.map_append]
  have hd : d.map (fun p => if p.1 = w then (p.1, p.2 + 1) else p) = d := by
    apply map_id_of_mem
    intro p hp
    rw [if_neg]
    intro he
    exact h (he ▸ List.mem_map_of_mem Prod.fst hp)
  rw [hd]
  simp

theorem foldl_bump_rep_last : ∀ (n : Nat) (d : List (List Char × Nat)) (w : List Char) (m : Nat),
    w ∉ d.map Prod.fst →
    List.foldl bump (d ++ [(w, m)]) (List.replicate n w) = d ++ [(w, m + n)] := by
  intro n
  induction n with
  | zero => intro d w m _; rfl
  | succ n ih =>
    intro d w m h
    rw [List.replicate_succ, List.foldl_cons, bump_last h, ih d w (m + 1) h,
      Nat.add_assoc, Nat.add_comm 1 n]

theorem foldl_bump_replicate {d : List (List Char × Nat)} {w : List Char} {c : Nat}
    (h : w ∉ d.map Prod.fst) (hc : 1 ≤ c) :
    List.foldl bump d (List.replicate c w) = d ++ [(w, c)] := by
  cases c with
  | zero => exact absurd hc (by decide)
  | succ c =>
    rw [List.replicate_succ, List.foldl_cons, bump_not_mem h, foldl_bump_rep_last c d w 1 h,
      Nat.add_comm 1 c]

theorem foldl_bump_replay : ∀ (T d : List (List Char × Nat)),
    ((d ++ T).map Prod.fst).Nodup → (∀ p ∈ T, 1 ≤ p.2) →
    List.foldl bump d (wordsOfTable T) = d ++ T := by
  intro T
  induction T with
  | nil => intro d _ _; rw [List.append_nil]; rfl
  | cons p T ih =>
    intro d hnd hpos
    obtain ⟨w, c⟩ := p
    have hw : w ∉ d.map Prod.fst := by
      intro hmem
      rw [List.map_append, List.nodup_append] at hnd
      exact hnd.2.2 hmem (by simp)
    have hstep : wordsOfTable ((w, c) :: T) = List.replicate c w ++ wordsOfTable T := by
      rw [wordsOfTable, List.map_cons, List.flatten_cons]; rfl
    rw [hstep, List.foldl_append,
      foldl_bump_replicate hw (hpos (w, c) (List.mem_cons_self _ _)),
      ih (d ++ [(w, c)]) (by rwa [List.append_assoc, List.singleton_append]) 
        (fun q hq => hpos q (List.mem_cons_of_mem _ hq)),
      List.append_assoc, List.singleton_append]

/-! Part: Helper lemmas: well-formedness of `extract_words` output -/

theorem bump_WF {il : List Char} {d : List (List Char × Nat)} {u : List Char}
    (hWF : TableWF il d) (halnum : alnumOK u = true) (hil : ∀ c ∈ il, c ∉ u) :
    TableWF il (bump d u) := by
  rw [bump]
  split_ifs with hmem
  · constructor
    · have hkeys : (d.map (fun p => if p.1 = u then (p.1, p.2 + 1) else p)).map Prod.fst
          = d.map Prod.fst := by
        rw [List.map_map]
        apply List.map_congr_left
        intro p _
        by_cases hp : p.1 = u <;> simp [hp]
      rw [hkeys]
      exact hWF.1
    · intro p hp
      rcases List.mem_map.mp hp with ⟨q, hq, he⟩
      obtain ⟨h1, h2, h3⟩ := hWF.2 q hq
      by_cases hqu : q.1 = u
      · rw [if_pos hqu] at he
        exact he ▸ ⟨h1, h2, Nat.le_succ_of_le h3⟩
      · rw [if_neg hqu] at he
        exact he ▸ ⟨h1, h2, h3⟩
  · constructor
    · rw [List.map_append, List.nodup_append]
      refine ⟨hWF.1, List.nodup_singleton u, ?_⟩
      intro a ha hb
      rcases List.mem_singleton.mp hb with rfl
      rcases List.mem_map.mp ha with ⟨q, hq, he⟩
      exact hmem ⟨q, hq, he⟩
    · intro p hp
      rcases List.mem_append.mp hp with hp | hp
      · exact hWF.2 p hp
      · rcases List.mem_singleton.mp hp with rfl
        exact ⟨halnum, hil, le_refl 1⟩

theorem processWord_WF {il : List Char} {d : List (List Char × Nat)} {w : List Char}
    (hWF : TableWF il d) : TableWF il (processWord il d w) := by
  rw [processWord]
  split_ifs with h
  · exact bump_WF hWF h (fun c hc => stripChars_not_mem il _ c hc)
  · exact hWF

theorem foldl_processWord_WF (il : List Char) :
    ∀ (ws : List (List Char)) (d : List (List Char × Nat)),
      TableWF il d → TableWF il (List.foldl (processWord il) d ws) := by
  intro ws
  induction ws with
  | nil => intro d h; exact h
  | cons w ws ih =>
    intro d h
    rw [List.foldl_cons]
    exact ih _ (processWord_WF h)

theorem extract_words_WF (msgs : List String) (il : List Char) :
    TableWF il (extract_words msgs il) := by
  apply foldl_processWord_WF
  exact ⟨List.nodup_nil, fun p hp => absurd hp (List.not_mem_nil p)⟩

/-! Part: Helper lemmas: column-role inference -/

theorem inferStep_name_col (r : Roles) (c : String × List String) :
    (inferStep r c).name_col = r.name_col ∨
      ((inferStep r c).name_col = some c.1 ∧ nameCheck c.2 = true) := by
  unfold inferStep
  split_ifs with h1 h2 h3
  · exact .inl rfl
  · exact .inr ⟨rfl, h2.2⟩
  · exact .inl rfl
  · exact .inl rfl

theorem foldl_inferStep_name : ∀ (cols : List (String × List String)) (r : Roles) (l : String),
    (cols.foldl inferStep r).name_col = some l →
    r.name_col = some l ∨ ∃ cells, (l, cells) ∈ cols ∧ nameCheck cells = true := by
  intro cols
  induction cols with
  | nil => exact fun r l h => .inl h
  | cons c cols ih =>
    intro r l h
    rw [List.foldl_cons] at h
    rcases ih (inferStep r c) l h with h' | ⟨cells, hm, hc⟩
    · rcases inferStep_name_col r c with he | ⟨he, hchk⟩
      · exact .inl (he ▸ h')
      · right
        have hcl : c.1 = l := Option.some.inj (he ▸ h')
        refine ⟨c.2, ?_, hchk⟩
        rw [← hcl]
        simp
    · exact .inr ⟨cells, List.mem_cons_of_mem c hm, hc⟩

theorem inferRoles_name_sound {cols : List (String × List String)} {l : String}
    (h : (inferRoles cols).name_col = some l) :
    ∃ cells, (l, cells) ∈ cols ∧ nameCheck cells = true := by
  rcases foldl_inferStep_name cols ⟨none, none, none⟩ l h with h' | h'
  · exact absurd h' (by simp)
  · exact h'

theorem assoc_nodup_eq {β : Type} : ∀ (l : List (String × β)) (a : String) (b b' : β),
    (l.map Prod.fst).Nodup → (a, b) ∈ l → (a, b') ∈ l → b = b' := by
  intro l
  induction l with
  | nil => intro a b b' _ h; cases h
  | cons x t ih =>
    intro a b b' hnd h1 h2
    rw [List.map_cons, List.nodup_cons] at hnd
    rcases List.mem_cons.mp h1 with h1 | h1 <;> rcases List.mem_cons.mp h2 with h2 | h2
    · have h3 : (a, b) = (a, b') := h1.trans h2.symm
      exact ((Prod.mk.injEq a b a b').mp h3).2
    · exfalso
      apply hnd.1
      have ha : a ∈ t.map Prod.fst := List.mem_map_of_mem Prod.fst h2
      have hx : x.1 = a := by rw [← h1]
      rw [hx]
      exact ha
    · exfalso
      apply hnd.1
      have ha : a ∈ t.map Prod.fst := List.mem_map_of_mem Prod.fst h1
      have hx : x.1 = a := by rw [← h2]
      rw [hx]
      exact ha
    · exact ih a b b' hnd.2 h1 h2

theorem lookupCells_of_mem : ∀ (cols : List (String × List String)) (a : String)
    (cells : List String), (cols.map Prod.fst).Nodup → (a, cells) ∈ cols →
    lookupCells cols a = some cells := by
  intro cols
  induction cols with
  | nil => intro a cells _ h; cases h
  | cons x t ih =>
    intro a cells hnd hm
    rw [List.map_cons, List.nodup_cons] at hnd
    rcases List.mem_cons.mp hm with h | h
    · rw [← h]
      rw [lookupCells, List.find?_cons, decide_eq_true rfl]
      rfl
    · have hxa : x.1 ≠ a := by
        intro he
        apply hnd.1
        rw [he]
        exact List.mem_map_of_mem Prod.fst h
      rw [lookupCells, List.find?_cons, decide_eq_false hxa]
      exact ih a cells hnd.2 h

theorem uniqueList_ne_nil {l : List String} (h : l ≠ []) : uniqueList l ≠ [] := by
  cases l with
  | nil => exact absurd rfl h
  | cons a t =>
    rw [uniqueList, uniqueListAux, if_neg (List.not_mem_nil a)]
    exact List.cons_ne_nil a _

/-! Part: Helper lemma: the whatsapp loop is the spec fold once a speaker exists -/

theorem parseWhatsappLoop_ok : ∀ (ls : List String) (cur : String)
    (d : List (String × List String)),
    parseWhatsappLoop ls (some cur) d =
      .ok (ls.foldl attribute_sequential_step (some cur, d)).2 := by
  intro ls
  induction ls with
  | nil => intro cur d; rfl
  | cons a ls ih =>
    intro cur d
    rw [List.foldl_cons]
    cases h : matchNewEntry a.data with
    | some pm =>
      obtain ⟨p, m⟩ := pm
      rw [parseWhatsappLoop, h]
      rw [show attribute_sequential_step (some cur, d) a
          = (some (String.mk p), appendMsg d (String.mk p) (String.mk m)) by
        rw [attribute_sequential_step, h]]
      exact ih (String.mk p) _
    | none =>
      rw [parseWhatsappLoop, h]
      rw [show attribute_sequential_step (some cur, d) a
          = (some cur, appendMsg d cur a) by
        rw [attribute_sequential_step, h]]
      exact ih cur _

/-! Part: Claim theorems -/

/-- Claim C1 (confirmed): for every input whose first line matches the
new-entry pattern, `_parse_whatsapp` succeeds and computes exactly the fold
described by the spec: a matching line sets the current speaker and appends
its captured message, a non-matching line is appended in its entirety as a
separate new entry under the current speaker, keys are in first-seen-speaker
order and each speaker's messages are in input-line order.  The witness
instantiates this at the three-line example and checks the exact
`{Alice: [Hi there], Bob: [Hello!, Second line from Bob]}` output. -/
theorem C1_sequential_refinement (l : String) (ls : List String)
    (h : (matchNewEntry l.data).isSome = true) :
    parse_whatsapp (l :: ls) = .ok (attribute_sequential (l :: ls)) := by
  rcases Option.isSome_iff_exists.mp h with ⟨pm, hpm⟩
  obtain ⟨p, m⟩ := pm
  rw [parse_whatsapp, parseWhatsappLoop, hpm, attribute_sequential, List.foldl_cons]
  rw [show attribute_sequential_step (none, []) l
      = (some (String.mk p), appendMsg [] (String.mk p) (String.mk m)) by
    rw [attribute_sequential_step, hpm]]
  exact parseWhatsappLoop_ok ls (String.mk p) _

/-- Witness for C1: the three-line example of the claim, with the exact
output dictionary required there. -/
theorem C1_sequential_refinement_witness :
    parse_whatsapp [waLine1, waLine2, waLine3] =
      .ok [((("Alice") : String), [(("Hi there") : String)]),
           ((("Bob") : String), [(("Hello!") : String), (("Second line from Bob") : String)])] :=
  (C1_sequential_refinement waLine1 [waLine2, waLine3] (by decide)).trans (by rfl)

/-- Claim C9 counterexample: on an input whose first line fails the
new-entry pattern, the exception that escapes `_parse_whatsapp` is a
`NameError` (`UnboundLocalError` on the local `person`), not the
`AttributeError` the claim describes as "silently uncaught" (that
`AttributeError` is caught by the `except AttributeError` handler). -/
theorem C9_attribute_error_counterexample :
    parse_whatsapp [(("hello"))] = .error .nameError ∧
    parse_whatsapp [(("hello"))] ≠ .error .attributeError := by
  refine ⟨rfl, ?_⟩
  intro hm
  have h1 : parse_whatsapp [(("hello"))] = Except.error PyError.nameError := rfl
  rw [h1] at hm
  exact absurd (Except.error.inj hm) (by decide)

/-- Claim C9 as amended: for every sequential input whose first line fails
the new-entry pattern, the run fails with an uncaught name error (the
attribute error from the failed match is caught internally), and no sentinel
or unknown pseudo-speaker is assigned. -/
theorem C9_first_line_nameerror (l : String) (ls : List String)
    (h : matchNewEntry l.data = none) :
    parse_whatsapp (l :: ls) = .error .nameError := by
  rw [parse_whatsapp, parseWhatsappLoop, h]

/-- Witness for the amended C9 at a concrete input. -/
theorem C9_first_line_nameerror_witness :
    parse_whatsapp [(("not a chat line")), waLine1] = .error .nameError :=
  C9_first_line_nameerror (("not a chat line")) [waLine1] (by rfl)

/-- Claim C10 (confirmed): a line with a well-formed date-time prefix and
speaker name but an empty message after the colon-space separator does not
match the new-entry pattern (the `(.+)` group needs at least one character),
so inside `_parse_whatsapp` it is treated as a continuation: the whole line
is appended verbatim as a new entry under the established current speaker,
and the current speaker is unchanged. -/
theorem C10_empty_message_continuation (line : String)
    (h : matchNewEntry line.data = none) (ls : List String) (cur : String)
    (d : List (String × List String)) :
    matchNewEntry emptyMsgLine.data = none ∧
    parseWhatsappLoop (line :: ls) (some cur) d =
      parseWhatsappLoop ls (some cur) (appendMsg d cur line) := by
  refine ⟨by rfl, ?_⟩
  rw [parseWhatsappLoop, h]

/-- Witness for C10: the exact line of the claim, appended verbatim under
the previously established speaker. -/
theorem C10_empty_message_continuation_witness :
    matchNewEntry emptyMsgLine.data = none ∧
    parseWhatsappLoop [emptyMsgLine] (some (("Alice"))) [((("Alice")), [(("Hi there"))])] =
      parseWhatsappLoop [] (some (("Alice")))
        (appendMsg [((("Alice")), [(("Hi there"))])] (("Alice")) emptyMsgLine) :=
  C10_empty_message_continuation emptyMsgLine (by rfl) [] (("Alice"))
    [((("Alice")), [(("Hi there"))])]

/-- Claim C3 (confirmed): every key of an `extract_words` table matches
`^[A-Z0-9]+$` and every count is positive (tokens failing the test after
uppercasing and illegal-character deletion are dropped entirely, never
present with count zero); and on the claim's example the result is exactly
`{HELLO: 1, WORLD: 1, 123: 1}`, with `foo-bar` excluded and no `FOOBAR`
key. -/
theorem C3_extract_words_invariant :
    (∀ (msgs : List String) (il : List Char) (w : List Char) (c : Nat),
        (w, c) ∈ extract_words msgs il → alnumOK w = true ∧ 1 ≤ c) ∧
    extract_words [(("Hello!")), (("WORLD.")), (("foo-bar")), (("123"))] defaultIllegal =
      [(String.data (("HELLO")), 1), (String.data (("WORLD")), 1),
       (String.data (("123")), 1)] := by
  constructor
  · intro msgs il w c h
    have hp := (extract_words_WF msgs il).2 (w, c) h
    exact ⟨hp.1, hp.2.2⟩
  · rfl

/-- Witness for C3, applying it at the key `HELLO` of the example run. -/
theorem C3_extract_words_invariant_witness :
    alnumOK (String.data (("HELLO"))) = true ∧ 1 ≤ 1 :=
  C3_extract_words_invariant.1
    [(("Hello!")), (("WORLD.")), (("foo-bar")), (("123"))] defaultIllegal
    (String.data (("HELLO"))) 1 (by decide)

/-- Claim C6 (confirmed): `extract_words` is idempotent under serialization:
re-running it on the serialization of its own output word list (each word,
with its multiplicity, joined by spaces into one message and re-split)
reproduces the same frequency table, for every message list and every
illegal-character set. -/
theorem C6_extract_words_idempotent (msgs : List String) (il : List Char) :
    extract_words [serializeTable (extract_words msgs il)] il = extract_words msgs il := by
  have hWF := extract_words_WF msgs il
  set T := extract_words msgs il with hT
  have hkeys : ∀ w ∈ wordsOfTable T, alnumOK w = true ∧ ∀ c ∈ il, c ∉ w := by
    intro w hw
    rw [wordsOfTable, List.mem_flatten] at hw
    obtain ⟨l, hl, hwl⟩ := hw
    rcases List.mem_map.mp hl with ⟨p, hp, he⟩
    have hwp : w = p.1 := List.eq_of_mem_replicate (he ▸ hwl)
    obtain ⟨h1, h2, _⟩ := hWF.2 p hp
    exact hwp ▸ ⟨h1, h2⟩
  have hgood : ∀ w ∈ wordsOfTable T, w ≠ [] ∧ ∀ c ∈ w, isPySpace c = false := by
    intro w hw
    obtain ⟨h1, _⟩ := hkeys w hw
    rw [alnumOK, Bool.and_eq_true, decide_eq_true_eq] at h1
    exact ⟨h1.1, fun c hc => alnum_not_space (List.all_eq_true.mp h1.2 c hc)⟩
  have hsplit : pySplit (serializeTable T).data = wordsOfTable T := by
    rw [serializeTable]
    exact pySplit_joinSpaces (wordsOfTable T) hgood
  have hlhs : extract_words [serializeTable T] il =
      List.foldl (processWord il) [] (wordsOfTable T) := by
    rw [extract_words, List.map_cons, List.map_nil, List.flatten_cons, List.flatten_nil,
      List.append_nil, hsplit]
  have hproc : ∀ w ∈ wordsOfTable T, ∀ d, processWord il d w = bump d w := by
    intro w hw d
    obtain ⟨halnum, hil⟩ := hkeys w hw
    have hupper : w.map pyUpperChar = w := by
      apply map_id_of_mem
      intro c hc
      rw [alnumOK, Bool.and_eq_true] at halnum
      exact pyUpperChar_id (List.all_eq_true.mp halnum.2 c hc)
    rw [processWord]
    rw [show stripChars il (w.map pyUpperChar) = w by rw [hupper, stripChars_id il w hil]]
    rw [if_pos halnum]
  rw [hlhs, foldl_congr_mem (processWord il) bump (wordsOfTable T) [] hproc]
  have := foldl_bump_replay T [] (by rw [List.nil_append]; exact hWF.1)
    (fun p hp => (hWF.2 p hp).2.2)
  rw [this, List.nil_append]

/-- Claim C2 counterexample: a 2-column table satisfying everything the
claim's particular case asks for (every cell of column A matches
`^[A-Za-z0-9 -]{1,30}$` with at most 255 distinct values; column B holds
longer free text), on which A is nevertheless assigned the *timestamp* role
(its cells also match the timestamp pattern, which is tested first), so the
name role is not assigned to A. -/
theorem C2_particular_counterexample :
    [(("1234"))].all matchesName = true ∧
    (uniqueList [(("1234"))]).length ≤ 255 ∧
    (inferRoles [((("A")), [(("1234"))]),
        ((("B")), [(("this is a much longer message text!"))])]).time_col = some (("A")) ∧
    (inferRoles [((("A")), [(("1234"))]),
        ((("B")), [(("this is a much longer message text!"))])]).name_col ≠ some (("A")) := by
  refine ⟨by rfl, by decide, by rfl, ?_⟩
  intro hm
  have h1 : (inferRoles [((("A")), [(("1234"))]),
      ((("B")), [(("this is a much longer message text!"))])]).name_col = none := rfl
  rw [h1] at hm
  exact Option.noConfusion hm

/-- Claim C2 as amended: with the additional hypothesis (forced by the
counterexample) that at least one cell of column A fails the timestamp
pattern, a 2-column table whose column A cells all match the name pattern
with at most 255 distinct values and whose column B cells are all longer
than 25 characters gets A as the name column and B as the message column,
and no timestamp column. -/
theorem C2_roles_amended (na nb : String) (aCells bCells : List String)
    (hAne : aCells ≠ [])
    (hA : aCells.all matchesName = true)
    (hA255 : (uniqueList aCells).length ≤ 255)
    (hAts : ∃ s ∈ aCells, matchesTimestamp s = false)
    (hBlong : ∀ s ∈ bCells, 25 < s.data.length) :
    inferRoles [(na, aCells), (nb, bCells)] = ⟨none, some na, some nb⟩ := by
  have hts_a : timestampCheck aCells = false := by
    rcases hAts with ⟨s, hs, hfail⟩
    cases h : timestampCheck aCells with
    | false => rfl
    | true =>
      rw [timestampCheck, Bool.and_eq_true] at h
      have := List.all_eq_true.mp h.2 s hs
      rw [hfail] at this
      exact absurd this (by decide)
  have hname_a : nameCheck aCells = true := by
    rw [nameCheck, Bool.and_eq_true, Bool.and_eq_true]
    exact ⟨⟨decide_eq_true hAne, hA⟩, decide_eq_true hA255⟩
  have hts_b : timestampCheck bCells = false := by
    cases bCells with
    | nil => rfl
    | cons s t =>
      cases h : timestampCheck (s :: t) with
      | false => rfl
      | true =>
        rw [timestampCheck, Bool.and_eq_true] at h
        have hmt := List.all_eq_true.mp h.2 s (List.mem_cons_self s t)
        have hlong := hBlong s (List.mem_cons_self s t)
        rw [matchesTimestamp, Bool.and_eq_true, decide_eq_true_eq] at hmt
        omega
  rw [inferRoles, List.foldl_cons, List.foldl_cons, List.foldl_nil]
  rw [show inferStep ⟨none, none, none⟩ (na, aCells) = ⟨none, some na, none⟩ by
    rw [inferStep]
    rw [if_neg (by rw [hts_a]; rintro ⟨_, h⟩; exact absurd h (by decide))]
    rw [if_pos ⟨rfl, hname_a⟩]]
  rw [inferStep]
  rw [if_neg (by rw [hts_b]; rintro ⟨_, h⟩; exact absurd h (by decide))]
  rw [if_neg (by rintro ⟨h, _⟩; exact Option.noConfusion h)]
  rw [if_pos rfl]

/-- Witness for the amended C2 at a concrete 2-column table. -/
theorem C2_roles_amended_witness :
    inferRoles [((("A")), [(("Alice"))]),
        ((("B")), [(("this is a much longer message text!"))])] =
      ⟨none, some (("A")), some (("B"))⟩ :=
  C2_roles_amended (("A")) (("B")) [(("Alice"))]
    [(("this is a much longer message text!"))]
    (by decide) (by rfl) (by decide)
    ⟨(("Alice")), by decide, by rfl⟩ (by decide)

/-- Claim C4 (confirmed): the name role is assigned to (the label of) a
column only when every cell matches `^[A-Za-z0-9 -]{1,30}$` and the column
has at most 255 distinct values; in particular any column with more than 255
distinct values (e.g. exactly 256) is rejected for the name role. -/
theorem C4_name_role_conditions (cols : List (String × List String))
    (hnd : (cols.map Prod.fst).Nodup) :
    (∀ l, (inferRoles cols).name_col = some l →
      ∃ cells, (l, cells) ∈ cols ∧ cells.all matchesName = true ∧
        (uniqueList cells).length ≤ 255) ∧
    (∀ c ∈ cols, 255 < (uniqueList c.2).length →
      (inferRoles cols).name_col ≠ some c.1) := by
  have hfirst : ∀ l, (inferRoles cols).name_col = some l →
      ∃ cells, (l, cells) ∈ cols ∧ cells.all matchesName = true ∧
        (uniqueList cells).length ≤ 255 := by
    intro l h
    obtain ⟨cells, hm, hc⟩ := inferRoles_name_sound h
    rw [nameCheck, Bool.and_eq_true, Bool.and_eq_true, decide_eq_true_eq,
      decide_eq_true_eq] at hc
    exact ⟨cells, hm, hc.1.2, hc.2⟩
  refine ⟨hfirst, ?_⟩
  intro c hc hcount heq
  obtain ⟨cells, hm, _, hle⟩ := hfirst c.1 heq
  have hcc : cells = c.2 := by
    apply assoc_nodup_eq cols c.1 cells c.2 hnd hm
    have : (c.1, c.2) = c := Prod.mk.eta
    rw [this]
    exact hc
  rw [hcc] at hle
  omega

/-- Witness for C4: a single name-shaped column with 256 distinct values is
not assigned the name role. -/
theorem C4_name_role_conditions_witness :
    cells256.all matchesName = true ∧
    255 < (uniqueList cells256).length ∧
    (inferRoles [((("A")), cells256)]).name_col ≠ some (("A")) := by
  refine ⟨by decide, by decide, ?_⟩
  exact (C4_name_role_conditions [((("A")), cells256)] (by decide)).2
    ((("A")), cells256) (by decide) (by decide)

/-- Claim C5 (confirmed): a tabular input with more than 3 columns or zero
rows makes the CSV pipeline fail with the corresponding structural
`Exception` raised by `_check_file` before `_parse_csv` (and so before any
role inference) runs, producing no attribution output. -/
theorem C5_structural_error (cols : List (String × List String)) (il : List Char)
    (h : 3 < cols.length ∨ nRows cols = 0) :
    csv_pipeline cols il = .error (.exception tooManyColsMsg) ∨
    csv_pipeline cols il = .error (.exception noRowsMsg) := by
  by_cases hc : 3 < cols.length
  · left
    rw [csv_pipeline, check_file_csv, if_pos hc]
  · right
    have h0 : nRows cols = 0 := h.resolve_left hc
    rw [csv_pipeline, check_file_csv, if_neg hc, if_pos (by omega)]

/-- Witness for C5: the four-column table. -/
theorem C5_structural_error_witness :
    csv_pipeline fourColTable defaultIllegal = .error (.exception tooManyColsMsg) ∨
    csv_pipeline fourColTable defaultIllegal = .error (.exception noRowsMsg) :=
  C5_structural_error fourColTable defaultIllegal (Or.inl (by decide))

/-- Claim C7 counterexample: on a 2-column table where no column qualifies
for the name role, `_parse_csv` fails with `KeyError: None` — a generic
failure carrying no description of the unresolved role — not with any
descriptive `Exception` message. -/
theorem C7_generic_keyerror_counterexample :
    parse_csv noNameTable defaultIllegal = .error (.keyError none) ∧
    ∀ m : String, parse_csv noNameTable defaultIllegal ≠ .error (.exception m) := by
  refine ⟨rfl, ?_⟩
  intro m hm
  have h1 : parse_csv noNameTable defaultIllegal = Except.error (PyError.keyError none) := rfl
  rw [h1] at hm
  exact PyError.noConfusion (Except.error.inj hm)

/-- Claim C7 as amended: whenever role inference fails to resolve the name
or the message column, `_parse_csv` fails with an uncaught `KeyError` on the
unset `None` column key (a generic failure that does not name the missing
role), and produces no output. -/
theorem C7_role_failure_keyerror (cols : List (String × List String)) (il : List Char)
    (hnd : (cols.map Prod.fst).Nodup)
    (h : (inferRoles cols).name_col = none ∨ (inferRoles cols).message_col = none) :
    parse_csv cols il = .error (.keyError none) := by
  cases hname : (inferRoles cols).name_col with
  | none =>
    rw [parse_csv]
    rw [hname]
  | some nc =>
    have hmsg : (inferRoles cols).message_col = none := by
      rcases h with h | h
      · rw [hname] at h; exact Option.noConfusion h
      · exact h
    obtain ⟨cells, hmem, hchk⟩ := inferRoles_name_sound hname
    have hlk : lookupCells cols nc = some cells := lookupCells_of_mem cols nc cells hnd hmem
    have hne : cells ≠ [] := by
      rw [nameCheck, Bool.and_eq_true, Bool.and_eq_true, decide_eq_true_eq] at hchk
      exact hchk.1.1
    rw [parse_csv]
    simp only [hname, hlk, hmsg]
    rw [if_neg (uniqueList_ne_nil hne)]

/-- Witness for the amended C7 at the concrete no-name-column table. -/
theorem C7_role_failure_keyerror_witness :
    parse_csv noNameTable defaultIllegal = .error (.keyError none) :=
  C7_role_failure_keyerror noNameTable defaultIllegal (by decide) (Or.inl (by rfl))

/-- Claim C8 (the claim is right, the code is wrong): `_parse_csv`'s own
docstring promises that a 1-column CSV is "just words from a single person",
but on a 1-column table the unassigned role columns stay `None` and indexing
the frame with `None` raises an uncaught `KeyError`; no implicit single
speaker group is ever produced.  Here the single free-text column passes the
name test, the message column stays unset, and the first grouping lookup
fails. -/
theorem C8_single_column_keyerror :
    parse_csv [((("words")), [(("hello world"))])] defaultIllegal =
      .error (.keyError none) := rfl
